import Mathlib

/-!
Shallow embedding of the Smart Energy Monitoring Dashboard (`src/app.py`).

The app loads a table (a `Timestamp` column plus one numeric wattage column
per device), filters device columns by a device-type substring, resamples
the readings to a chosen granularity for charting, and computes per-device
total energy (kWh) and estimated cost, a rounded summary table, the top-3
consumers and a CSV export.

Modelling conventions:
* wattage readings, tariffs, kWh and costs are rationals (`ℚ`): the Python
  floats are idealised as exact arithmetic;
* timestamps are minutes since 1970-01-01 00:00 (a Thursday), `Ts := ℕ`;
  a raw timestamp cell is `Option Ts`: `none` stands for a cell that
  `pd.to_datetime` cannot parse (in which case it raises);
* `pandas.DataFrame.resample(..).mean()` is embedded by `resampleMean`,
  following pandas semantics: a bin grid from the bucket of the earliest
  reading to the bucket of the latest one, per-column means, `NaN`
  (here `Option.none`) for empty bins, left-edge labels for `H`/`D` and
  right-edge (Sunday / last day of month, at midnight) labels for `W`/`M`.
-/

/-- Minutes since 1970-01-01 00:00. -/
abbrev Ts := Nat

/-- The four values of the `Time View` selectbox (`src/app.py` line 25). -/
inductive Gran where
  | hourly
  | daily
  | weekly
  | monthly
deriving DecidableEq, Repr

/-- Is `y` a (Gregorian) leap year? -/
def isLeap (y : Nat) : Bool :=
  y % 4 == 0 && (y % 100 != 0 || y % 400 == 0)

/-- Number of days of month index `m`, where `m` counts months since
January 1970 (month 0 = 1970-01). -/
def daysInMonth (m : Nat) : Nat :=
  match m % 12 with
  | 1 => if isLeap (1970 + m / 12) then 29 else 28
  | 3 => 30
  | 5 => 30
  | 8 => 30
  | 10 => 30
  | _ => 31

/-- Days from 1970-01-01 to the first day of month index `m`. -/
def daysBeforeMonth : Nat → Nat
  | 0 => 0
  | m + 1 => daysBeforeMonth m + daysInMonth m

/-- Fuelled search for the month containing day `d`. -/
def monthOfDayAux : Nat → Nat → Nat → Nat
  | 0, m, _ => m
  | fuel + 1, m, d =>
      if d < daysBeforeMonth (m + 1) then m else monthOfDayAux fuel (m + 1) d

/-- Index (months since 1970-01) of the calendar month containing day `d`
(days since 1970-01-01). -/
def monthOfDay (d : Nat) : Nat := monthOfDayAux (d + 1) 0 d

/-- Timestamp of year `y`, month `m` (1-12), day `d` (1-based), hour `hh`,
minute `mi`. -/
def mkTs (y m d hh mi : Nat) : Ts :=
  ((daysBeforeMonth ((y - 1970) * 12 + (m - 1)) + (d - 1)) * 1440 + hh * 60 + mi : Nat)

/-- The resampling bin key of a timestamp: which bucket it falls in.
Hour and day buckets are floors; weeks run Monday through Sunday
(1970-01-01 was a Thursday, hence the 3-day shift); months are calendar
months. -/
def key : Gran → Ts → Nat
  | .hourly, t => t / 60
  | .daily, t => t / 1440
  | .weekly, t => (t + 3 * 1440) / (7 * 1440)
  | .monthly, t => monthOfDay (t / 1440)

/-- The timestamp pandas uses to label bucket `k`: the bucket start for
hourly/daily resampling, the bucket's Sunday for weekly, and the last
calendar day of the month for monthly (each at midnight). -/
def label : Gran → Nat → Nat
  | .hourly, k => k * 60
  | .daily, k => k * 1440
  | .weekly, k => k * (7 * 1440) + 3 * 1440
  | .monthly, k => (daysBeforeMonth (k + 1) - 1) * 1440

/-- Left edge of bucket `k`, as an integer number of minutes (the first
weekly bucket nominally starts before the epoch). -/
def lo : Gran → Nat → Int
  | .hourly, k => k * 60
  | .daily, k => k * 1440
  | .weekly, k => (k : Int) * (7 * 1440) - 3 * 1440
  | .monthly, k => (daysBeforeMonth k : Int) * 1440

/-- Mean of a list of rationals; `none` on the empty list (pandas `NaN`). -/
def meanOpt (l : List ℚ) : Option ℚ :=
  if l.isEmpty then none else some (l.sum / l.length)

/-- Smallest bin key of a list of timestamps (`0` for the empty list). -/
def kminOf (g : Gran) (ts : List Ts) : Nat :=
  match ts.map (key g) with
  | [] => 0
  | k :: ks => ks.foldl min k

/-- Largest bin key of a list of timestamps (`0` for the empty list). -/
def kmaxOf (g : Gran) (ts : List Ts) : Nat :=
  match ts.map (key g) with
  | [] => 0
  | k :: ks => ks.foldl max k

/-- The values of one column that land in bucket `k`: the column is paired
row-wise with the timestamp index, then filtered by bin key. -/
def bucketVals (g : Gran) (k : Nat) (ts : List Ts) (vs : List ℚ) : List ℚ :=
  ((ts.zip vs).filter (fun p => key g p.1 == k)).map Prod.snd

/-- `work.resample(freq).mean()` (`src/app.py` lines 70-78): one output row
per bin from the bin of the earliest timestamp to the bin of the latest
one, carrying the bin label and each column's mean over the rows falling
in the bin (`none` when the bin is empty). -/
def resampleMean (g : Gran) (ts : List Ts) (cols : List (String × List ℚ)) :
    List (Ts × List (Option ℚ)) :=
  if ts.isEmpty then []
  else
    (List.range (kmaxOf g ts + 1 - kminOf g ts)).map (fun i =>
      let k := kminOf g ts + i
      (label g k, cols.map (fun c => meanOpt (bucketVals g k ts c.2))))

/-- Round a rational to the nearest integer, ties to even (the rounding of
IEEE floats, hence of `numpy`/`pandas.DataFrame.round`). -/
def halfEven (x : ℚ) : ℤ :=
  if x - ⌊x⌋ < 1 / 2 then ⌊x⌋
  else if 1 / 2 < x - ⌊x⌋ then ⌊x⌋ + 1
  else if ⌊x⌋ % 2 = 0 then ⌊x⌋ else ⌊x⌋ + 1

/-- `Series.round(d)`: round to `d` decimal places, ties to even. -/
def roundTo (d : Nat) (x : ℚ) : ℚ :=
  (halfEven (x * 10 ^ d) : ℚ) / 10 ^ d

/-- Python's `pat in s` substring test (`src/app.py` line 64). -/
def substrB (pat s : String) : Bool := decide (pat.data <:+: s.data)

/-- The loaded dataframe, as the validation code sees it: the parsed cells
of the `Timestamp` column when that column exists (`none` cells are the
ones `pd.to_datetime` cannot parse), plus the remaining columns with their
names and numeric values, in header order. -/
structure RawTable where
  tsCol : Option (List (Option Ts))
  devCols : List (String × List ℚ)

/-- The four ways a render pass halts before producing the dashboard:
`st.error`/`st.warning` followed by `st.stop` (lines 52-67), or the
exception `pd.to_datetime` raises on an unparsable cell (line 56). -/
inductive Err where
  | missingTimestamp
  | unparsableTimestamp
  | noDeviceCols
  | emptyFilter
deriving DecidableEq, Repr

/-- `pd.to_datetime(df["Timestamp"])`: parse every cell, failing (raising)
as soon as any cell is unparsable. -/
def parseAll : List (Option Ts) → Option (List Ts)
  | [] => some []
  | none :: _ => none
  | some t :: cs => (parseAll cs).map (t :: ·)

/-- `device_cols` after the device-type filter (`src/app.py` lines 62-64):
`"All"` keeps every non-timestamp column, any other choice keeps the
columns whose name contains the choice as a substring. -/
def selectedCols (cols : List (String × List ℚ)) (deviceType : String) :
    List (String × List ℚ) :=
  if deviceType = "All" then cols
  else cols.filter (fun c => substrB deviceType c.1)

/-- `kwh_per_device = work[device_cols].sum() / 1000.0` (line 81). -/
def kwhOf (cols : List (String × List ℚ)) : List (String × ℚ) :=
  cols.map (fun c => (c.1, c.2.sum / 1000))

/-- `costs = kwh_per_device * tariff` (line 82). -/
def costsOf (tariff : ℚ) (cols : List (String × List ℚ)) : List (String × ℚ) :=
  cols.map (fun c => (c.1, c.2.sum / 1000 * tariff))

/-- The `summary` dataframe (lines 96-99): per device, `Total kWh`
rounded to 3 decimals and `Estimated Cost (INR)` rounded to 2. -/
def summaryRows (tariff : ℚ) (cols : List (String × List ℚ)) :
    List (String × ℚ × ℚ) :=
  cols.map (fun c =>
    (c.1, roundTo 3 (c.2.sum / 1000), roundTo 2 (c.2.sum / 1000 * tariff)))

/-- Everything the dashboard derives from the validated data in one render
pass: the resampled chart series and the kWh/cost figures. -/
structure Output where
  aggSeries : List (Ts × List (Option ℚ))
  kwhPerDevice : List (String × ℚ)
  costs : List (String × ℚ)
  totalKwh : ℚ
  totalCost : ℚ
  summary : List (String × ℚ × ℚ)
deriving DecidableEq, Repr

/-- The validation-and-aggregation pipeline of `src/app.py` lines 52-99:
check the `Timestamp` column exists, parse it, check device columns exist,
apply the device-type filter and reject an empty selection, then build the
resampled series (over all device columns, as `work` retains them all) and
the per-device kWh, costs, totals and rounded summary (over the selected
columns only). -/
def process (t : RawTable) (deviceType : String) (g : Gran) (tariff : ℚ) :
    Except Err Output :=
  match t.tsCol with
  | none => .error .missingTimestamp
  | some cells =>
      match parseAll cells with
      | none => .error .unparsableTimestamp
      | some ts =>
          if t.devCols.isEmpty then .error .noDeviceCols
          else if (selectedCols t.devCols deviceType).isEmpty then
            .error .emptyFilter
          else
            .ok { aggSeries := resampleMean g ts t.devCols
                  kwhPerDevice := kwhOf (selectedCols t.devCols deviceType)
                  costs := costsOf tariff (selectedCols t.devCols deviceType)
                  totalKwh :=
                    ((kwhOf (selectedCols t.devCols deviceType)).map Prod.snd).sum
                  totalCost :=
                    ((costsOf tariff (selectedCols t.devCols deviceType)).map
                      Prod.snd).sum
                  summary := summaryRows tariff (selectedCols t.devCols deviceType) }

/-- The fields of an `Output` that feed the Summary (KPIs, breakdown
table, totals) as opposed to the chart series. -/
structure SummaryView where
  kwhPerDevice : List (String × ℚ)
  costs : List (String × ℚ)
  totalKwh : ℚ
  totalCost : ℚ
  summary : List (String × ℚ × ℚ)
deriving DecidableEq, Repr

/-- Project an `Output` to its Summary-feeding fields, dropping the chart
series. -/
def summaryPart (o : Output) : SummaryView :=
  ⟨o.kwhPerDevice, o.costs, o.totalKwh, o.totalCost, o.summary⟩

/-- `summary.sort_values("Total kWh", ascending=False).head(3)`
(`src/app.py` line 122). -/
def topDevices (rows : List (String × ℚ × ℚ)) : List (String × ℚ × ℚ) :=
  (List.insertionSort (fun a b => b.2.1 ≤ a.2.1) rows).take 3

/-- The built-in sample dataset (`src/app.py` lines 36-46). -/
def sampleTable : RawTable where
  tsCol := some
    [some (mkTs 2025 12 26 8 0), some (mkTs 2025 12 26 9 0),
     some (mkTs 2025 12 26 10 0), some (mkTs 2025 12 26 11 0),
     some (mkTs 2025 12 26 12 0), some (mkTs 2025 12 26 13 0),
     some (mkTs 2025 12 26 14 0), some (mkTs 2025 12 26 15 0),
     some (mkTs 2025 12 26 16 0)]
  devCols :=
    [("Fan (W)", [120, 100, 130, 90, 110, 95, 105, 115, 98]),
     ("Light (W)", [60, 40, 70, 50, 65, 55, 45, 60, 52]),
     ("Fridge (W)", [200, 220, 210, 230, 205, 215, 225, 210, 220]),
     ("TV (W)", [150, 160, 140, 170, 155, 145, 165, 150, 160])]

instance {ε α : Type} [DecidableEq ε] [DecidableEq α] :
    DecidableEq (Except ε α) := fun a b =>
  match a, b with
  | .ok x, .ok y =>
      if h : x = y then .isTrue (by rw [h]) else .isFalse (by simp [h])
  | .error x, .error y =>
      if h : x = y then .isTrue (by rw [h]) else .isFalse (by simp [h])
  | .ok _, .error _ => .isFalse (by simp)
  | .error _, .ok _ => .isFalse (by simp)


/-! ### Helper lemmas about the pipeline -/

theorem parseAll_eq_none_of_mem (cells : List (Option Ts)) (h : none ∈ cells) :
    parseAll cells = none := by
  induction cells with
  | nil => cases h
  | cons c cs ih =>
      cases c with
      | none => rfl
      | some t =>
          simp only [List.mem_cons] at h
          rcases h with h | h
          · exact absurd h (by simp)
          · simp [parseAll, ih h]

theorem process_ok_inv {t : RawTable} {dt : String} {g : Gran} {tariff : ℚ}
    {o : Output} (h : process t dt g tariff = Except.ok o) :
    ∃ cells ts, t.tsCol = some cells ∧ parseAll cells = some ts ∧
      t.devCols.isEmpty = false ∧ (selectedCols t.devCols dt).isEmpty = false ∧
      o = { aggSeries := resampleMean g ts t.devCols
            kwhPerDevice := kwhOf (selectedCols t.devCols dt)
            costs := costsOf tariff (selectedCols t.devCols dt)
            totalKwh := ((kwhOf (selectedCols t.devCols dt)).map Prod.snd).sum
            totalCost := ((costsOf tariff (selectedCols t.devCols dt)).map Prod.snd).sum
            summary := summaryRows tariff (selectedCols t.devCols dt) } := by
  unfold process at h
  split at h
  · exact absurd h (by simp)
  next cells hceq =>
    split at h
    · exact absurd h (by simp)
    next ts hp =>
      split at h
      · exact absurd h (by simp)
      next hd =>
        split at h
        · exact absurd h (by simp)
        next hs =>
          exact ⟨cells, ts, hceq, hp, by simpa using hd,
            by simpa using hs, (Except.ok.inj h).symm⟩

theorem costsOf_snd_sum (tariff : ℚ) (cols : List (String × List ℚ)) :
    ((costsOf tariff cols).map Prod.snd).sum =
      tariff * ((kwhOf cols).map Prod.snd).sum := by
  induction cols with
  | nil => simp [costsOf, kwhOf]
  | cons c cs ih => simp [costsOf, kwhOf] at ih ⊢; rw [ih]; ring

/-- Concrete run of the pipeline on the built-in sample with device type
`"Fan"` and tariff 8: the Summary-feeding fields. -/
theorem sample_fan_summaryPart :
    (process sampleTable "Fan" Gran.hourly 8).map summaryPart =
      Except.ok ⟨[("Fan (W)", 963/1000)], [("Fan (W)", 7704/1000)],
        963/1000, 7704/1000, [("Fan (W)", 963/1000, 77/10)]⟩ := by
  have h1 : substrB "Fan" "Fan (W)" = true := by decide
  have h2 : substrB "Fan" "Light (W)" = false := by decide
  have h3 : substrB "Fan" "Fridge (W)" = false := by decide
  have h4 : substrB "Fan" "TV (W)" = false := by decide
  simp only [process, sampleTable, parseAll, Option.map, selectedCols, h1, h2, h3,
    h4, List.filter, kwhOf, costsOf, summaryRows, summaryPart, Except.map, roundTo,
    halfEven, List.map, List.isEmpty, List.sum_cons, List.sum_nil, String.reduceEq,
    reduceIte]
  norm_num

theorem sample_fan_ok :
    ∃ o, process sampleTable "Fan" Gran.hourly 8 = Except.ok o ∧
      summaryPart o = ⟨[("Fan (W)", 963/1000)], [("Fan (W)", 7704/1000)],
        963/1000, 7704/1000, [("Fan (W)", 963/1000, 77/10)]⟩ := by
  have hsum := sample_fan_summaryPart
  rcases ho : process sampleTable "Fan" Gran.hourly 8 with e | o <;> rw [ho] at hsum
  · exact absurd hsum (by simp [Except.map])
  · exact ⟨o, rfl, by simpa [Except.map] using hsum⟩

/-! ### Claims -/

/-- Claim C1: for every dataset and selected device column, the Summary's
total energy for that device is the sum of its raw wattage readings
divided by 1000, and its estimated cost is that kWh value times the
tariff; on the built-in sample's `Fan (W)` readings the kWh total is
0.963, the cost at tariff 8 is 7.704, and the cost rounds to 7.70 at two
decimals. -/
theorem per_device_kwh_cost :
    (∀ (t : RawTable) (dt : String) (g : Gran) (tariff : ℚ) (o : Output),
        process t dt g tariff = Except.ok o →
        o.kwhPerDevice =
          (selectedCols t.devCols dt).map (fun c => (c.1, c.2.sum / 1000)) ∧
        o.costs =
          (selectedCols t.devCols dt).map
            (fun c => (c.1, c.2.sum / 1000 * tariff))) ∧
    (process sampleTable "Fan" Gran.hourly 8).map summaryPart =
      Except.ok ⟨[("Fan (W)", 963/1000)], [("Fan (W)", 7704/1000)], 963/1000,
        7704/1000, [("Fan (W)", 963/1000, 77/10)]⟩ ∧
    roundTo 2 (7704/1000 : ℚ) = 77/10 := by
  refine ⟨fun t dt g tariff o h => ?_, sample_fan_summaryPart, ?_⟩
  · obtain ⟨cells, ts, -, -, -, -, rfl⟩ := process_ok_inv h
    exact ⟨rfl, rfl⟩
  · norm_num [roundTo, halfEven]

theorem per_device_kwh_cost_witness :
    ∃ o, process sampleTable "Fan" Gran.hourly 8 = Except.ok o ∧
      o.kwhPerDevice =
        (selectedCols sampleTable.devCols "Fan").map
          (fun c => (c.1, c.2.sum / 1000)) := by
  obtain ⟨o, ho, -⟩ := sample_fan_ok
  exact ⟨o, ho, (per_device_kwh_cost.1 _ _ _ _ _ ho).1⟩

/-- Claim C2: the granularity input influences only the resampled chart
series; running the pipeline with any two granularities produces identical
Summary fields (per-device kWh, costs, totals, rounded summary). -/
theorem granularity_not_affect_summary (t : RawTable) (dt : String)
    (tariff : ℚ) (g1 g2 : Gran) :
    (process t dt g1 tariff).map summaryPart =
      (process t dt g2 tariff).map summaryPart := by
  unfold process
  split
  · rfl
  · split
    · rfl
    · split
      · rfl
      · split
        · rfl
        · rfl

/-- Claim C3: restricting the aggregation to a sublist `S` of the device
columns yields exactly the devices of `S`, each with the same kWh value it
has in the unrestricted aggregation. -/
theorem subset_summary_agrees (cols S : List (String × List ℚ))
    (h : S.Sublist cols) :
    (kwhOf S).map Prod.fst = S.map Prod.fst ∧
    (kwhOf S).Sublist (kwhOf cols) ∧
    ∀ c ∈ S, (c.1, c.2.sum / 1000) ∈ kwhOf S ∧
      (c.1, c.2.sum / 1000) ∈ kwhOf cols := by
  refine ⟨?_, h.map _, fun c hc =>
    ⟨List.mem_map_of_mem _ hc, List.mem_map_of_mem _ (h.subset hc)⟩⟩
  clear h
  induction S with
  | nil => rfl
  | cons c cs ih =>
      simp only [kwhOf, List.map_cons] at ih ⊢
      rw [ih]

theorem subset_summary_agrees_witness :
    (kwhOf [("Fan (W)", ([120, 100, 130, 90, 110, 95, 105, 115, 98] :
        List ℚ))]).map Prod.fst = ["Fan (W)"] ∧
    (kwhOf [("Fan (W)", [120, 100, 130, 90, 110, 95, 105, 115, 98])]).Sublist
      (kwhOf sampleTable.devCols) := by
  have h := subset_summary_agrees sampleTable.devCols
    [("Fan (W)", [120, 100, 130, 90, 110, 95, 105, 115, 98])]
    ((List.nil_sublist _).cons₂ _)
  exact ⟨by simpa using h.1, h.2.1⟩

/-- Claim C4: a missing `Timestamp` column, an absence of device columns,
or a device-type filter matching zero columns halts the render pass with a
validation error; no Summary, chart data or export is produced. -/
theorem validation_errors_halt (t : RawTable) (dt : String) (g : Gran)
    (tariff : ℚ) :
    (t.tsCol = none → process t dt g tariff = Except.error Err.missingTimestamp) ∧
    (∀ cells ts, t.tsCol = some cells → parseAll cells = some ts →
      (selectedCols t.devCols dt).isEmpty = true →
      process t dt g tariff = Except.error Err.noDeviceCols ∨
      process t dt g tariff = Except.error Err.emptyFilter) := by
  constructor
  · intro h
    unfold process
    rw [h]
  · intro cells ts hc hp hsel
    by_cases hd : t.devCols.isEmpty = true
    · left
      simp only [process, hc, hp]
      rw [if_pos hd]
    · right
      simp only [process, hc, hp]
      rw [if_neg hd, if_pos hsel]

theorem validation_errors_halt_witness :
    process ⟨none, []⟩ "All" Gran.hourly 8 =
      Except.error Err.missingTimestamp ∧
    (process ⟨some [], []⟩ "All" Gran.hourly 8 =
        Except.error Err.noDeviceCols ∨
      process ⟨some [], []⟩ "All" Gran.hourly 8 =
        Except.error Err.emptyFilter) :=
  ⟨(validation_errors_halt ⟨none, []⟩ "All" Gran.hourly 8).1 rfl,
    (validation_errors_halt ⟨some [], []⟩ "All" Gran.hourly 8).2 [] []
      rfl rfl (by decide)⟩

/-- Claim C6: a table whose `Timestamp` column contains an unparsable cell
fails fast with a data error before any aggregation; no Summary is
produced. -/
theorem unparsable_timestamp_fails (t : RawTable) (dt : String) (g : Gran)
    (tariff : ℚ) (cells : List (Option Ts)) (hc : t.tsCol = some cells)
    (hbad : none ∈ cells) :
    process t dt g tariff = Except.error Err.unparsableTimestamp := by
  simp only [process, hc, parseAll_eq_none_of_mem cells hbad]

theorem unparsable_timestamp_fails_witness :
    process ⟨some [none], [("Fan (W)", [1])]⟩ "All" Gran.hourly 8 =
      Except.error Err.unparsableTimestamp :=
  unparsable_timestamp_fails _ "All" Gran.hourly 8 [none] rfl (by simp)

/-- Claim C7: the total estimated cost (the sum of all per-device costs)
equals the tariff times the sum of per-device total kWh; the equality is
exact, hence in particular within rounding to 2 decimals. -/
theorem total_cost_factors (t : RawTable) (dt : String) (g : Gran)
    (tariff : ℚ) (o : Output) (h : process t dt g tariff = Except.ok o) :
    o.totalCost = tariff * o.totalKwh := by
  obtain ⟨cells, ts, -, -, -, -, rfl⟩ := process_ok_inv h
  exact costsOf_snd_sum tariff _

theorem total_cost_factors_witness :
    ∃ o, process sampleTable "Fan" Gran.hourly 8 = Except.ok o ∧
      o.totalCost = 8 * o.totalKwh := by
  obtain ⟨o, ho, -⟩ := sample_fan_ok
  exact ⟨o, ho, total_cost_factors _ _ _ _ _ ho⟩

/-- Claim C9: with a device type other than `"All"`, the retained device
columns are exactly those whose name contains the selected type as a
substring; `"All"` retains every device column unchanged. -/
theorem device_filter_substring (cols : List (String × List ℚ)) (dt : String) :
    (dt = "All" → selectedCols cols dt = cols) ∧
    (dt ≠ "All" →
      (selectedCols cols dt).Sublist cols ∧
      ∀ c ∈ cols, c ∈ selectedCols cols dt ↔ dt.data <:+: c.1.data) := by
  constructor
  · intro h
    simp [selectedCols, h]
  · intro h
    refine ⟨?_, fun c hc => ?_⟩
    · simp only [selectedCols, if_neg h]
      exact List.filter_sublist _
    · simp only [selectedCols, if_neg h, List.mem_filter, substrB,
        decide_eq_true_eq]
      exact ⟨fun hx => hx.2, fun hi => ⟨hc, hi⟩⟩

theorem device_filter_substring_witness :
    selectedCols sampleTable.devCols "All" = sampleTable.devCols ∧
    (selectedCols sampleTable.devCols "Fan").Sublist sampleTable.devCols :=
  ⟨(device_filter_substring sampleTable.devCols "All").1 rfl,
    ((device_filter_substring sampleTable.devCols "Fan").2 (by decide)).1⟩

/-- Claim C10: the Top Energy Consumers table has `min 3 n` rows (all
devices when there are at most 3), they are sorted by `Total kWh`
descending, and together with the remaining Summary rows they permute the
Summary, every remaining row having a `Total kWh` no larger than any shown
row. -/
theorem top_devices_spec (rows : List (String × ℚ × ℚ)) :
    (topDevices rows).length = min 3 rows.length ∧
    List.Sorted (fun a b => b.2.1 ≤ a.2.1) (topDevices rows) ∧
    ∃ rest, (topDevices rows ++ rest).Perm rows ∧
      ∀ y ∈ rest, ∀ x ∈ topDevices rows, y.2.1 ≤ x.2.1 := by
  haveI : IsTotal (String × ℚ × ℚ) (fun a b => b.2.1 ≤ a.2.1) :=
    ⟨fun a b => le_total b.2.1 a.2.1⟩
  haveI : IsTrans (String × ℚ × ℚ) (fun a b => b.2.1 ≤ a.2.1) :=
    ⟨fun a b c h1 h2 => le_trans h2 h1⟩
  have hs := List.sorted_insertionSort
    (fun a b : String × ℚ × ℚ => b.2.1 ≤ a.2.1) rows
  have hperm := List.perm_insertionSort
    (fun a b : String × ℚ × ℚ => b.2.1 ≤ a.2.1) rows
  have hsplit := List.take_append_drop 3
    (List.insertionSort (fun a b : String × ℚ × ℚ => b.2.1 ≤ a.2.1) rows)
  unfold topDevices
  refine ⟨?_, ?_,
    ⟨List.drop 3 (List.insertionSort
        (fun a b : String × ℚ × ℚ => b.2.1 ≤ a.2.1) rows), ?_, ?_⟩⟩
  · rw [List.length_take, hperm.length_eq]
  · exact List.Pairwise.sublist (List.take_sublist _ _) hs
  · rw [hsplit]
    exact hperm
  · intro y hy x hx
    have hs' := hs
    rw [← hsplit] at hs'
    exact (List.pairwise_append.1 hs').2.2 x hx y hy

/-! ### Calendar lemmas for the resampling bins -/

theorem daysInMonth_pos (m : Nat) : 0 < daysInMonth m := by
  unfold daysInMonth
  split
  · split <;> norm_num
  all_goals norm_num

theorem daysBeforeMonth_lt_succ (m : Nat) :
    daysBeforeMonth m < daysBeforeMonth (m + 1) := by
  have := daysInMonth_pos m
  simp only [daysBeforeMonth]
  omega

theorem daysBeforeMonth_strictMono : StrictMono daysBeforeMonth :=
  strictMono_nat_of_lt_succ daysBeforeMonth_lt_succ

theorem le_daysBeforeMonth (m : Nat) : m ≤ daysBeforeMonth m := by
  induction m with
  | zero => exact Nat.le_refl 0
  | succ n ih =>
      have := daysInMonth_pos n
      simp only [daysBeforeMonth]
      omega

theorem monthOfDayAux_spec (fuel : Nat) :
    ∀ m d, daysBeforeMonth m ≤ d → d < daysBeforeMonth (m + fuel) →
      daysBeforeMonth (monthOfDayAux fuel m d) ≤ d ∧
      d < daysBeforeMonth (monthOfDayAux fuel m d + 1) := by
  induction fuel with
  | zero =>
      intro m d h1 h2
      rw [Nat.add_zero] at h2
      omega
  | succ f ih =>
      intro m d h1 h2
      simp only [monthOfDayAux]
      by_cases hlt : d < daysBeforeMonth (m + 1)
      · rw [if_pos hlt]
        exact ⟨h1, hlt⟩
      · rw [if_neg hlt]
        have h2' : d < daysBeforeMonth (m + 1 + f) := by
          have : m + 1 + f = m + (f + 1) := by omega
          rwa [this]
        exact ih (m + 1) d (Nat.le_of_not_lt hlt) h2'

theorem monthOfDay_spec (d : Nat) :
    daysBeforeMonth (monthOfDay d) ≤ d ∧
    d < daysBeforeMonth (monthOfDay d + 1) := by
  have h2 : d < daysBeforeMonth (0 + (d + 1)) := by
    rw [Nat.zero_add]
    have := le_daysBeforeMonth (d + 1)
    omega
  exact monthOfDayAux_spec (d + 1) 0 d (Nat.zero_le d) h2

theorem monthOfDay_eq_iff (d k : Nat) :
    monthOfDay d = k ↔ daysBeforeMonth k ≤ d ∧ d < daysBeforeMonth (k + 1) := by
  constructor
  · rintro rfl
    exact monthOfDay_spec d
  · rintro ⟨h1, h2⟩
    have hs := monthOfDay_spec d
    by_contra hne
    rcases Nat.lt_or_ge (monthOfDay d) k with hlt | hge
    · have := daysBeforeMonth_strictMono.monotone (Nat.succ_le_of_lt hlt)
      simp only [Nat.succ_eq_add_one] at this
      omega
    · have hgt : k < monthOfDay d := Nat.lt_of_le_of_ne hge (Ne.symm hne)
      have := daysBeforeMonth_strictMono.monotone (Nat.succ_le_of_lt hgt)
      simp only [Nat.succ_eq_add_one] at this
      omega

theorem key_eq_iff (g : Gran) (t : Ts) (k : Nat) :
    key g t = k ↔ lo g k ≤ (t : ℤ) ∧ (t : ℤ) < lo g (k + 1) := by
  cases g with
  | hourly => simp only [key, lo]; omega
  | daily => simp only [key, lo]; omega
  | weekly => simp only [key, lo]; omega
  | monthly =>
      simp only [key, lo]
      rw [monthOfDay_eq_iff]
      omega

theorem label_lt_succ (g : Gran) (k : Nat) : label g k < label g (k + 1) := by
  cases g with
  | hourly => simp only [label]; omega
  | daily => simp only [label]; omega
  | weekly => simp only [label]; omega
  | monthly =>
      simp only [label]
      have h1 := daysBeforeMonth_lt_succ (k + 1)
      have h2 := le_daysBeforeMonth (k + 1)
      omega

theorem label_strictMono (g : Gran) : StrictMono (label g) :=
  strictMono_nat_of_lt_succ (label_lt_succ g)

theorem foldl_min_le_init (l : List Nat) (a : Nat) : l.foldl min a ≤ a := by
  induction l generalizing a with
  | nil => exact Nat.le_refl a
  | cons x xs ih => exact Nat.le_trans (ih (min a x)) (Nat.min_le_left a x)

theorem foldl_min_le_mem (l : List Nat) (a x : Nat) (hx : x ∈ l) :
    l.foldl min a ≤ x := by
  induction l generalizing a with
  | nil => cases hx
  | cons y ys ih =>
      rcases List.mem_cons.1 hx with rfl | hx'
      · exact Nat.le_trans (foldl_min_le_init ys (min a x)) (Nat.min_le_right a x)
      · exact ih (min a y) hx'


theorem init_le_foldl_max (l : List Nat) (a : Nat) : a ≤ l.foldl max a := by
  induction l generalizing a with
  | nil => exact Nat.le_refl a
  | cons x xs ih => exact Nat.le_trans (Nat.le_max_left a x) (ih (max a x))

theorem mem_le_foldl_max (l : List Nat) (a x : Nat) (hx : x ∈ l) :
    x ≤ l.foldl max a := by
  induction l generalizing a with
  | nil => cases hx
  | cons y ys ih =>
      rcases List.mem_cons.1 hx with rfl | hx'
      · exact Nat.le_trans (Nat.le_max_right a x) (init_le_foldl_max ys (max a x))
      · exact ih (max a y) hx'

theorem kminOf_le_key (g : Gran) (ts : List Ts) (t : Ts) (ht : t ∈ ts) :
    kminOf g ts ≤ key g t := by
  cases ts with
  | nil => cases ht
  | cons t0 tr =>
      show (tr.map (key g)).foldl min (key g t0) ≤ key g t
      rcases List.mem_cons.1 ht with rfl | ht'
      · exact foldl_min_le_init _ _
      · exact foldl_min_le_mem _ _ _ (List.mem_map_of_mem _ ht')

theorem key_le_kmaxOf (g : Gran) (ts : List Ts) (t : Ts) (ht : t ∈ ts) :
    key g t ≤ kmaxOf g ts := by
  cases ts with
  | nil => cases ht
  | cons t0 tr =>
      show key g t ≤ (tr.map (key g)).foldl max (key g t0)
      rcases List.mem_cons.1 ht with rfl | ht'
      · exact init_le_foldl_max _ _
      · exact mem_le_foldl_max _ _ _ (List.mem_map_of_mem _ ht')

/-- Claim C5 (amended): the resampled series has one entry per bin, from
the bin of the earliest reading to the bin of the latest one inclusive, in
strictly increasing label order; the `j`-th entry carries the label of bin
`kmin + j` and, per device, the mean of the readings falling in that bin
(`none` when the bin has no readings — empty bins ARE emitted); bins are
contiguous, non-overlapping calendar-aligned intervals, and every reading
falls in an emitted bin. -/
theorem resample_bucketed_mean (g : Gran) (ts : List Ts)
    (cols : List (String × List ℚ)) (hne : ts ≠ []) :
    (∀ t k, key g t = k ↔ lo g k ≤ (t : ℤ) ∧ (t : ℤ) < lo g (k + 1)) ∧
    (resampleMean g ts cols).length = kmaxOf g ts + 1 - kminOf g ts ∧
    ((resampleMean g ts cols).map Prod.fst).Pairwise (· < ·) ∧
    (∀ j (hj : j < (resampleMean g ts cols).length),
      (resampleMean g ts cols).get ⟨j, hj⟩ =
        (label g (kminOf g ts + j),
          cols.map (fun c => meanOpt (bucketVals g (kminOf g ts + j) ts c.2)))) ∧
    (∀ t ∈ ts, kminOf g ts ≤ key g t ∧ key g t ≤ kmaxOf g ts) := by
  have hne' : ts.isEmpty = false := by
    cases ts with
    | nil => exact absurd rfl hne
    | cons a l => rfl
  refine ⟨key_eq_iff g, ?_, ?_, ?_,
    fun t ht => ⟨kminOf_le_key g ts t ht, key_le_kmaxOf g ts t ht⟩⟩
  · simp [resampleMean, hne']
  · have hmap : (resampleMean g ts cols).map Prod.fst =
        (List.range (kmaxOf g ts + 1 - kminOf g ts)).map
          (fun i => label g (kminOf g ts + i)) := by
      simp [resampleMean, hne', List.map_map, Function.comp]
    rw [hmap, List.pairwise_map]
    exact (List.pairwise_lt_range _).imp
      (fun hab => label_strictMono g (Nat.add_lt_add_left hab _))
  · intro j hj
    rw [List.get_eq_getElem]
    simp only [resampleMean, hne', Bool.false_eq_true, if_false,
      List.getElem_map, List.getElem_range]

/-- Claim C5 counterexample: the claim says buckets containing zero
readings are not emitted and that entries carry bucket-START timestamps.
Hourly readings at 2025-12-26 08:00 and 10:00 produce THREE output rows,
the middle one (the empty 09:00 bucket) present with no mean value; and a
single reading on Monday 2025-12-22 00:00 resampled weekly is labelled
2025-12-28 (the Sunday at the END of its calendar week), a timestamp
strictly after the earliest (and only) reading. -/
theorem resample_claim_counterexample :
    (resampleMean Gran.hourly [mkTs 2025 12 26 8 0, mkTs 2025 12 26 10 0]
        [("Fan (W)", [100, 200])]).length = 3 ∧
    ((resampleMean Gran.hourly [mkTs 2025 12 26 8 0, mkTs 2025 12 26 10 0]
        [("Fan (W)", [100, 200])]).map Prod.snd)[1]? = some [none] ∧
    (resampleMean Gran.weekly [mkTs 2025 12 22 0 0]
        [("Fan (W)", [100])]).map Prod.fst = [mkTs 2025 12 28 0 0] ∧
    mkTs 2025 12 22 0 0 < mkTs 2025 12 28 0 0 := by
  set_option maxRecDepth 8000 in
  refine ⟨by decide, by decide, by decide, by decide⟩

theorem resample_bucketed_mean_witness :
    (resampleMean Gran.hourly [mkTs 2025 12 26 8 0, mkTs 2025 12 26 10 0]
        [("Fan (W)", [100, 200])]).length =
      kmaxOf Gran.hourly [mkTs 2025 12 26 8 0, mkTs 2025 12 26 10 0] + 1 -
        kminOf Gran.hourly [mkTs 2025 12 26 8 0, mkTs 2025 12 26 10 0] ∧
    ((resampleMean Gran.hourly [mkTs 2025 12 26 8 0, mkTs 2025 12 26 10 0]
        [("Fan (W)", [100, 200])]).map Prod.fst).Pairwise (· < ·) := by
  have h := resample_bucketed_mean Gran.hourly
    [mkTs 2025 12 26 8 0, mkTs 2025 12 26 10 0] [("Fan (W)", [100, 200])]
    (by simp)
  exact ⟨h.2.1, h.2.2.1⟩

/-! ### CSV export of the summary (`src/app.py` lines 127-128) -/

/-- The ten decimal digit characters. -/
def digitList : List Char := ['0', '1', '2', '3', '4', '5', '6', '7', '8', '9']

/-- Character for a single decimal digit. -/
def digitChar : Nat → Char
  | 0 => '0'
  | 1 => '1'
  | 2 => '2'
  | 3 => '3'
  | 4 => '4'
  | 5 => '5'
  | 6 => '6'
  | 7 => '7'
  | 8 => '8'
  | _ => '9'

/-- Digit value of a decimal digit character. -/
def charToDigit : Char → Nat
  | '0' => 0
  | '1' => 1
  | '2' => 2
  | '3' => 3
  | '4' => 4
  | '5' => 5
  | '6' => 6
  | '7' => 7
  | '8' => 8
  | _ => 9

/-- Decimal digits of `n`, most significant first (empty for `0`). -/
def natDigitsChars (n : Nat) : List Char :=
  ((Nat.digits 10 n).map digitChar).reverse

/-- Decimal rendering of a natural number. -/
def natToStrChars (n : Nat) : List Char :=
  if n = 0 then ['0'] else natDigitsChars n

/-- Value of a most-significant-first decimal digit string. -/
def parseNatChars (l : List Char) : Nat :=
  Nat.ofDigits 10 ((l.map charToDigit).reverse)

/-- Digits of `m` left-padded with zeros to width `k`. -/
def padDigits (k m : Nat) : List Char :=
  List.replicate (k - (Nat.digits 10 m).length) '0' ++ natDigitsChars m

/-- Fixed-point decimal rendering of a non-negative rational with `k`
decimal places (`x * 10 ^ k` must be an integer): how the float columns of
the summary appear in the CSV text. -/
def renderFixedChars (k : Nat) (x : ℚ) : List Char :=
  natToStrChars ((x * 10 ^ k).num.toNat / 10 ^ k) ++
    '.' :: padDigits k ((x * 10 ^ k).num.toNat % 10 ^ k)

/-- Split a character list on a separator (CSV field/line splitting). -/
def splitOnChar (c : Char) : List Char → List (List Char)
  | [] => [[]]
  | x :: xs =>
      if x = c then [] :: splitOnChar c xs
      else
        match splitOnChar c xs with
        | [] => [[x]]
        | l :: ls => (x :: l) :: ls

/-- Read back a fixed-point decimal `intpart.fracpart`. -/
def parseFixedChars (l : List Char) : Option ℚ :=
  match splitOnChar '.' l with
  | [ip, fp] =>
      some ((parseNatChars ip : ℚ) + (parseNatChars fp : ℚ) / 10 ^ fp.length)
  | _ => none

/-- One CSV data row: index (device name), `Total kWh` with 3 decimals,
`Estimated Cost (INR)` with 2 decimals. -/
def rowChars (r : String × ℚ × ℚ) : List Char :=
  r.1.data ++ ',' :: (renderFixedChars 3 r.2.1 ++ ',' :: renderFixedChars 2 r.2.2)

/-- The CSV header `pandas.DataFrame.to_csv` writes for the summary. -/
def headerChars : List Char := ",Total kWh,Estimated Cost (INR)".data

/-- `summary.to_csv()` (line 127): header line then one line per device,
each terminated by a newline. -/
def toCsv (rows : List (String × ℚ × ℚ)) : String :=
  ⟨headerChars ++ '\n' :: rows.foldr (fun r acc => rowChars r ++ '\n' :: acc) []⟩

/-- Parse one CSV data row. -/
def parseRow (l : List Char) : Option (String × ℚ × ℚ) :=
  match splitOnChar ',' l with
  | [nm, f1, f2] =>
      match parseFixedChars f1, parseFixedChars f2 with
      | some q1, some q2 => some (⟨nm⟩, q1, q2)
      | _, _ => none
  | _ => none

/-- Parse the CSV data rows. -/
def parseRows : List (List Char) → Option (List (String × ℚ × ℚ))
  | [] => some []
  | l :: ls =>
      match parseRow l, parseRows ls with
      | some r, some rs => some (r :: rs)
      | _, _ => none

/-- Re-parse an exported summary CSV: check the header, require a trailing
newline, then parse each data row. -/
def parseCsv (s : String) : Option (List (String × ℚ × ℚ)) :=
  match splitOnChar '\n' s.data with
  | [] => none
  | header :: body =>
      if header = headerChars ∧ body.getLast? = some [] then
        parseRows body.dropLast
      else none

/-! ### Digit-level round-trip lemmas -/

theorem charToDigit_digitChar (d : Nat) (h : d < 10) :
    charToDigit (digitChar d) = d := by
  interval_cases d <;> rfl

theorem digitChar_mem (d : Nat) : digitChar d ∈ digitList := by
  unfold digitChar
  split <;> decide

theorem parseNatChars_natDigitsChars (n : Nat) :
    parseNatChars (natDigitsChars n) = n := by
  unfold parseNatChars natDigitsChars
  rw [List.map_reverse, List.reverse_reverse, List.map_map]
  have hcd : ∀ d ∈ Nat.digits 10 n, (charToDigit ∘ digitChar) d = id d :=
    fun d hd => charToDigit_digitChar d (Nat.digits_lt_base (by norm_num) hd)
  rw [List.map_congr_left hcd, List.map_id]
  exact Nat.ofDigits_digits 10 n

theorem parseNatChars_natToStrChars (n : Nat) :
    parseNatChars (natToStrChars n) = n := by
  unfold natToStrChars
  by_cases h : n = 0
  · subst h
    rw [if_pos rfl]
    decide
  · rw [if_neg h]
    exact parseNatChars_natDigitsChars n

theorem ofDigits_replicate_zero (j : Nat) :
    Nat.ofDigits 10 (List.replicate j 0) = 0 := by
  induction j with
  | zero => rfl
  | succ n ih => simp [List.replicate_succ, Nat.ofDigits_cons, ih]

theorem parseNatChars_padDigits (k m : Nat) :
    parseNatChars (padDigits k m) = m := by
  unfold parseNatChars padDigits
  rw [List.map_append, List.reverse_append, Nat.ofDigits_append,
    List.map_replicate]
  have h0 : charToDigit '0' = 0 := rfl
  rw [h0, List.reverse_replicate, ofDigits_replicate_zero]
  have := parseNatChars_natDigitsChars m
  unfold parseNatChars at this
  rw [this]
  ring

theorem digits_len_le_of_lt_pow {m k : Nat} (h : m < 10 ^ k) :
    (Nat.digits 10 m).length ≤ k := by
  by_cases hm : m = 0
  · subst hm
    simp
  · by_contra hlen
    push_neg at hlen
    have h1 := Nat.base_pow_length_digits_le 10 m (by norm_num) hm
    have h2 : (10:ℕ) ^ (k + 1) ≤ 10 ^ (Nat.digits 10 m).length :=
      Nat.pow_le_pow_right (by norm_num) hlen
    have h3 : (10:ℕ) ^ (k + 1) = 10 * 10 ^ k := by
      rw [pow_succ]
      ring
    omega

theorem padDigits_length (k m : Nat) (h : m < 10 ^ k) :
    (padDigits k m).length = k := by
  have hle : (Nat.digits 10 m).length ≤ k := digits_len_le_of_lt_pow h
  unfold padDigits natDigitsChars
  rw [List.length_append, List.length_replicate, List.length_reverse,
    List.length_map]
  omega

theorem mem_natDigitsChars (n : Nat) : ∀ c ∈ natDigitsChars n, c ∈ digitList := by
  intro c hc
  unfold natDigitsChars at hc
  rw [List.mem_reverse] at hc
  obtain ⟨d, -, rfl⟩ := List.mem_map.1 hc
  exact digitChar_mem d

theorem mem_natToStrChars (n : Nat) : ∀ c ∈ natToStrChars n, c ∈ digitList := by
  intro c hc
  unfold natToStrChars at hc
  by_cases h : n = 0
  · rw [if_pos h] at hc
    rcases List.mem_cons.1 hc with rfl | hc
    · decide
    · cases hc
  · rw [if_neg h] at hc
    exact mem_natDigitsChars n c hc

theorem mem_padDigits (k m : Nat) : ∀ c ∈ padDigits k m, c ∈ digitList := by
  intro c hc
  unfold padDigits at hc
  rcases List.mem_append.1 hc with hc | hc
  · rw [List.mem_replicate] at hc
    rw [hc.2]
    decide
  · exact mem_natDigitsChars m c hc

theorem mem_renderFixedChars (k : Nat) (x : ℚ) :
    ∀ c ∈ renderFixedChars k x, c ∈ '.' :: digitList := by
  intro c hc
  unfold renderFixedChars at hc
  rcases List.mem_append.1 hc with hc | hc
  · exact List.mem_cons_of_mem _ (mem_natToStrChars _ c hc)
  · rcases List.mem_cons.1 hc with rfl | hc
    · exact List.mem_cons_self _ _
    · exact List.mem_cons_of_mem _ (mem_padDigits _ _ c hc)

theorem renderFixedChars_no_sep (k : Nat) (x : ℚ) :
    ',' ∉ renderFixedChars k x ∧ Char.ofNat 10 ∉ renderFixedChars k x := by
  constructor <;> intro h
  · exact absurd (mem_renderFixedChars k x _ h) (by decide)
  · exact absurd (mem_renderFixedChars k x _ h) (by decide)

theorem dot_not_mem_natToStrChars (n : Nat) : '.' ∉ natToStrChars n := by
  intro h
  exact absurd (mem_natToStrChars n _ h) (by decide)

theorem dot_not_mem_padDigits (k m : Nat) : '.' ∉ padDigits k m := by
  intro h
  exact absurd (mem_padDigits k m _ h) (by decide)

/-! ### Splitting lemmas -/

theorem splitOnChar_not_mem (c : Char) (l : List Char) (h : c ∉ l) :
    splitOnChar c l = [l] := by
  induction l with
  | nil => rfl
  | cons x xs ih =>
      rw [List.mem_cons] at h
      push_neg at h
      have hx : ¬(x = c) := fun e => h.1 e.symm
      simp [splitOnChar, hx, ih h.2]

theorem splitOnChar_append (c : Char) (A B : List Char) (hA : c ∉ A) :
    splitOnChar c (A ++ c :: B) = A :: splitOnChar c B := by
  induction A with
  | nil => simp [splitOnChar]
  | cons x xs ih =>
      rw [List.mem_cons] at hA
      push_neg at hA
      have hx : ¬(x = c) := fun e => hA.1 e.symm
      simp [splitOnChar, hx, ih hA.2]

theorem parse_renderFixed (k : Nat) (x : ℚ) (hx : 0 ≤ x)
    (hden : (x * 10 ^ k).den = 1) :
    parseFixedChars (renderFixedChars k x) = some x := by
  have hnum : ((x * 10 ^ k).num : ℚ) = x * 10 ^ k := by
    conv_rhs => rw [← Rat.num_div_den (x * 10 ^ k)]
    rw [hden]
    simp
  have hnn : (0:ℤ) ≤ (x * 10 ^ k).num := by
    rw [Rat.num_nonneg]
    positivity
  have hmq : (((x * 10 ^ k).num.toNat : ℕ) : ℚ) = x * 10 ^ k := by
    rw [← hnum]
    exact_mod_cast congrArg (fun z : ℤ => (z : ℚ)) (Int.toNat_of_nonneg hnn)
  unfold renderFixedChars parseFixedChars
  rw [splitOnChar_append '.' _ _ (dot_not_mem_natToStrChars _),
    splitOnChar_not_mem '.' _ (dot_not_mem_padDigits _ _)]
  have hmod : (x * 10 ^ k).num.toNat % 10 ^ k < 10 ^ k :=
    Nat.mod_lt _ (by positivity)
  simp only [parseNatChars_natToStrChars, parseNatChars_padDigits,
    padDigits_length _ _ hmod]
  congr 1
  have h10 : ((10:ℚ)) ^ k ≠ 0 := by positivity
  have hkey : ∀ q r : ℕ, 10 ^ k * q + r = (x * 10 ^ k).num.toNat →
      (q:ℚ) + (r:ℚ) / 10 ^ k = x := by
    intro q r hqr
    have h2 : ((q:ℚ) + (r:ℚ) / 10 ^ k) * 10 ^ k = x * 10 ^ k := by
      rw [add_mul, div_mul_cancel₀ _ h10, ← hmq, ← hqr]
      push_cast
      ring
    exact mul_right_cancel₀ h10 h2
  exact hkey _ _ (Nat.div_add_mod _ _)

theorem newline_not_mem_rowChars (r : String × ℚ × ℚ)
    (hn : '\n' ∉ r.1.data) : '\n' ∉ rowChars r := by
  unfold rowChars
  intro h
  rcases List.mem_append.1 h with h | h
  · exact hn h
  · rcases List.mem_cons.1 h with h | h
    · exact absurd h (by decide)
    · rcases List.mem_append.1 h with h | h
      · exact (renderFixedChars_no_sep 3 r.2.1).2 h
      · rcases List.mem_cons.1 h with h | h
        · exact absurd h (by decide)
        · exact (renderFixedChars_no_sep 2 r.2.2).2 h

theorem parseRow_rowChars (r : String × ℚ × ℚ) (hn : ',' ∉ r.1.data)
    (h1p : 0 ≤ r.2.1) (h1 : (r.2.1 * 10 ^ 3).den = 1)
    (h2p : 0 ≤ r.2.2) (h2 : (r.2.2 * 10 ^ 2).den = 1) :
    parseRow (rowChars r) = some r := by
  unfold parseRow rowChars
  rw [splitOnChar_append ',' _ _ hn,
    splitOnChar_append ',' _ _ (renderFixedChars_no_sep 3 r.2.1).1,
    splitOnChar_not_mem ',' _ (renderFixedChars_no_sep 2 r.2.2).1]
  simp only [parse_renderFixed 3 r.2.1 h1p h1, parse_renderFixed 2 r.2.2 h2p h2]

theorem splitOnChar_newline_body (rows : List (String × ℚ × ℚ))
    (hn : ∀ r ∈ rows, '\n' ∉ r.1.data) :
    splitOnChar '\n' (rows.foldr (fun r acc => rowChars r ++ '\n' :: acc) []) =
      rows.map rowChars ++ [[]] := by
  induction rows with
  | nil => rfl
  | cons r rs ih =>
      rw [List.foldr_cons, List.map_cons, List.cons_append,
        splitOnChar_append '\n' _ _
          (newline_not_mem_rowChars r (hn r (List.mem_cons_self r rs))),
        ih (fun y hy => hn y (List.mem_cons_of_mem r hy))]

theorem parseRows_map_rowChars (rows : List (String × ℚ × ℚ))
    (hn : ∀ r ∈ rows, ',' ∉ r.1.data)
    (hq : ∀ r ∈ rows, 0 ≤ r.2.1 ∧ (r.2.1 * 10 ^ 3).den = 1 ∧
      0 ≤ r.2.2 ∧ (r.2.2 * 10 ^ 2).den = 1) :
    parseRows (rows.map rowChars) = some rows := by
  induction rows with
  | nil => rfl
  | cons r rs ih =>
      obtain ⟨q1, d1, q2, d2⟩ := hq r (List.mem_cons_self r rs)
      rw [List.map_cons]
      unfold parseRows
      rw [parseRow_rowChars r (hn r (List.mem_cons_self r rs)) q1 d1 q2 d2,
        ih (fun y hy => hn y (List.mem_cons_of_mem r hy))
          (fun y hy => hq y (List.mem_cons_of_mem r hy))]

theorem parseCsv_toCsv (rows : List (String × ℚ × ℚ))
    (hn : ∀ r ∈ rows, ',' ∉ r.1.data ∧ '\n' ∉ r.1.data)
    (hq : ∀ r ∈ rows, 0 ≤ r.2.1 ∧ (r.2.1 * 10 ^ 3).den = 1 ∧
      0 ≤ r.2.2 ∧ (r.2.2 * 10 ^ 2).den = 1) :
    parseCsv (toCsv rows) = some rows := by
  unfold parseCsv toCsv
  rw [show (String.mk (headerChars ++ '\n' ::
      rows.foldr (fun r acc => rowChars r ++ '\n' :: acc) [])).data =
      headerChars ++ '\n' ::
        rows.foldr (fun r acc => rowChars r ++ '\n' :: acc) [] from rfl]
  rw [splitOnChar_append '\n' headerChars _ (by decide),
    splitOnChar_newline_body rows (fun r hr => (hn r hr).2)]
  change (if headerChars = headerChars ∧
      (List.map rowChars rows ++ [[]]).getLast? = some [] then
      parseRows (List.map rowChars rows ++ [[]]).dropLast else none) = some rows
  rw [if_pos ⟨rfl, by rw [List.getLast?_concat]⟩, List.dropLast_concat]
  exact parseRows_map_rowChars rows (fun r hr => (hn r hr).1) hq

theorem roundTo_nonneg (d : Nat) (x : ℚ) (h : 0 ≤ x) : 0 ≤ roundTo d x := by
  unfold roundTo
  apply div_nonneg _ (by positivity)
  have hf : (0:ℤ) ≤ ⌊x * 10 ^ d⌋ := Int.floor_nonneg.mpr (by positivity)
  unfold halfEven
  split
  · exact_mod_cast hf
  · split
    · exact_mod_cast (by omega : (0:ℤ) ≤ ⌊x * 10 ^ d⌋ + 1)
    · split
      · exact_mod_cast hf
      · exact_mod_cast (by omega : (0:ℤ) ≤ ⌊x * 10 ^ d⌋ + 1)

theorem roundTo_den_mul (d : Nat) (x : ℚ) : (roundTo d x * 10 ^ d).den = 1 := by
  unfold roundTo
  rw [div_mul_cancel₀]
  · exact Rat.den_intCast _
  · positivity

/-- Claim C8: exporting the computed Summary as the `summary.csv` text
(one row per device, `Total kWh` to 3 decimals, the cost to 2 decimals,
after a header line) and re-parsing that text reproduces exactly the same
device rows and rounded values, for any device names free of separator
characters, non-negative readings and a non-negative tariff. -/
theorem summary_csv_round_trip (tariff : ℚ) (cols : List (String × List ℚ))
    (hname : ∀ c ∈ cols, ',' ∉ c.1.data ∧ '\n' ∉ c.1.data)
    (htar : 0 ≤ tariff) (hval : ∀ c ∈ cols, ∀ v ∈ c.2, 0 ≤ v) :
    parseCsv (toCsv (summaryRows tariff cols)) =
      some (summaryRows tariff cols) := by
  apply parseCsv_toCsv
  · intro r hr
    obtain ⟨c, hc, rfl⟩ := List.mem_map.1 hr
    exact hname c hc
  · intro r hr
    obtain ⟨c, hc, rfl⟩ := List.mem_map.1 hr
    have hsum : 0 ≤ c.2.sum := List.sum_nonneg (hval c hc)
    have hkwh : (0:ℚ) ≤ c.2.sum / 1000 := by positivity
    exact ⟨roundTo_nonneg _ _ hkwh, roundTo_den_mul 3 _,
      roundTo_nonneg _ _ (mul_nonneg hkwh htar), roundTo_den_mul 2 _⟩

theorem summary_csv_round_trip_witness :
    parseCsv (toCsv (summaryRows 8 sampleTable.devCols)) =
      some (summaryRows 8 sampleTable.devCols) := by
  apply summary_csv_round_trip
  · intro c hc
    simp only [sampleTable] at hc
    fin_cases hc <;> exact ⟨by decide, by decide⟩
  · norm_num
  · intro c hc
    simp only [sampleTable] at hc
    fin_cases hc <;> intro v hv <;> fin_cases hv <;> norm_num
